import Mathlib

/-!
Verification development for the CRM AI backend core: the model manager
(`apps/ai-backend/models/model_manager.py`), the token tracker pricing routine
(`apps/ai-backend/models/token_tracker.py`), the rule engine
(`apps/ai-backend/rules/rule_engine.py`), and the workflow engine
(`apps/ai-service/services/workflow_engine.py`).

The Python code is shallowly embedded:
* Python `dict`s with string keys become insertion-ordered association lists
  (`List (String × α)`), with `dictLookup`/`dictSet` mirroring `d.get`/`d[k] = v`.
* Python floats become `ℚ` (the code only ever adds, multiplies, divides and
  compares such values).
* Mutable Python dictionaries that can be shared between objects (the request
  `context` map touched by rule actions) are modelled through an explicit heap:
  a request holds an address (`Option Nat`) instead of the dictionary itself, so
  the aliasing created by pydantic's shallow `.copy()` is observable.
* Calls into the Python standard library (`re.search`, `re.sub`, `float`,
  `int`, `json.dumps`) are abstracted as an oracle record `PyOracles`; an
  `Option` result with `none` models the call raising an exception.
* `async` functions that can raise become `Except`/`Option`-returning
  functions; provider adapter calls are passed in as a function
  `gen : String → Except String Unit`.
-/

/-! ## Data model (`schemas/ai_schemas.py`) -/

inductive ModelType
  | openai
  | anthropic
  | huggingface
  | ollama
  | custom
deriving DecidableEq, Repr

/-- The `.value` of the `ModelType` string enum. -/
def ModelType.value : ModelType → String
  | .openai => "openai"
  | .anthropic => "anthropic"
  | .huggingface => "huggingface"
  | .ollama => "ollama"
  | .custom => "custom"

inductive PricingModel
  | per_token
  | per_request
  | subscription
  | free
deriving DecidableEq, Repr

structure ModelPricing where
  model_id : String := ""
  pricing_model : PricingModel
  input_token_cost : ℚ := 0
  output_token_cost : ℚ := 0
  request_cost : ℚ := 0
deriving DecidableEq, Repr

structure TokenUsage where
  input_tokens : Nat := 0
  output_tokens : Nat := 0
  total_tokens : Nat := 0
deriving DecidableEq, Repr

structure ModelConfig where
  model_id : String
  model_type : ModelType
  max_tokens : Int := 4096
  supports_streaming : Bool := false
  pricing : ModelPricing
  is_active : Bool := true
deriving DecidableEq, Repr

/-- `AIRequest`: the request `context` dict is mutable and shareable between
objects, so the field stores a heap address rather than the dictionary;
`none` models an explicit `null`. -/
structure AIRequest where
  prompt : String := ""
  preferred_model : Option String := none
  fallback_models : List String := []
  max_tokens : Option Int := some 1000
  temperature : Option ℚ := some (7/10)
  top_p : Option ℚ := some 1
  context : Option Nat := none
  rule_set_id : Option String := none
deriving DecidableEq, Repr

structure AIResponse where
  content : String := ""
  model_used : String := ""
  request_id : String := ""
  confidence_score : Option ℚ := none
  rules_applied : List String := []
deriving DecidableEq, Repr

/-! ## Python dictionary / heap primitives -/

/-- `d.get(k)` on an insertion-ordered string-keyed dict. -/
def dictLookup {α : Type} (l : List (String × α)) (k : String) : Option α :=
  (l.find? (fun p => p.1 == k)).map (·.2)

/-- `d[k] = v`: overwrite in place when the key exists, otherwise append
(Python dicts preserve insertion order and append new keys at the end). -/
def dictSet {α : Type} (l : List (String × α)) (k : String) (v : α) : List (String × α) :=
  if (l.find? (fun p => p.1 == k)).isSome then
    l.map (fun p => if p.1 == k then (k, v) else p)
  else l ++ [(k, v)]

abbrev PyDict := List (String × String)

/-- Heap of string-to-string dictionaries; addresses are list indices. -/
abbrev Heap := List PyDict

def heapGet (h : Heap) (addr : Nat) : PyDict := (h.get? addr).getD []

def heapSet (h : Heap) (addr : Nat) (d : PyDict) : Heap := h.set addr d

/-- In-place `d[k] = v` on the dictionary stored at `addr`. -/
def heapWrite (h : Heap) (addr : Nat) (k v : String) : Heap :=
  heapSet h addr (dictSet (heapGet h addr) k v)

/-- Python truthiness of an `Optional[Dict]`: `None` and the empty dict are
falsy, a non-empty dict is truthy. -/
def contextTruthy (h : Heap) (ctx : Option Nat) : Bool :=
  match ctx with
  | none => false
  | some addr => !(heapGet h addr).isEmpty

/-! ## String helpers (kernel-reducible stand-ins for Python `in`, `str.lower`,
`str.strip`, `str.startswith`) -/

def listPrefix : List Char → List Char → Bool
  | [], _ => true
  | _ :: _, [] => false
  | a :: as, b :: bs => a == b && listPrefix as bs

def listContains : List Char → List Char → Bool
  | [], n => n.isEmpty
  | c :: t, n => listPrefix n (c :: t) || listContains t n

/-- Python `sub in s`. -/
def strContains (s sub : String) : Bool := listContains s.data sub.data

def charLower (c : Char) : Char :=
  if 'A' ≤ c ∧ c ≤ 'Z' then Char.ofNat (c.toNat + 32) else c

/-- Python `s.lower()` (ASCII letters, which is all the rule engine compares). -/
def strLower (s : String) : String := ⟨s.data.map charLower⟩

def isPySpace (c : Char) : Bool := c == ' ' || c == '\n' || c == '\t' || c == '\r'

/-- Python `s.strip()`. -/
def strTrim (s : String) : String :=
  ⟨((s.data.dropWhile isPySpace).reverse.dropWhile isPySpace).reverse⟩

/-- Python `s.startswith(p)`. -/
def strStartsWith (s p : String) : Bool := listPrefix p.data s.data

/-! ## Model manager state (`models/model_manager.py`)

`_load_model_configs` populates `models`, `health_status`, `request_counts`
and `response_times` together for every catalog entry, so the statistics maps
are read with a default (`0` / `[]`) where the Python indexing relies on that
loader invariant. -/

structure ModelManager where
  providers : List String := []
  models : List (String × ModelConfig) := []
  health_status : List (String × Bool) := []
  request_counts : List (String × Nat) := []
  response_times : List (String × List ℚ) := []
deriving Repr

/-- `self.health_status.get(model_id, False)`. -/
def healthGet (mgr : ModelManager) (m : String) : Bool :=
  (dictLookup mgr.health_status m).getD false

/-- `_get_average_response_time`. -/
def avgResponseTime (mgr : ModelManager) (m : String) : ℚ :=
  let ts := (dictLookup mgr.response_times m).getD []
  if ts.isEmpty then 0 else ts.sum / ts.length

/-- `_get_cost_efficiency_score`. -/
def costEfficiencyScore (mgr : ModelManager) (m : String) : ℚ :=
  match dictLookup mgr.models m with
  | none => 0
  | some mc =>
    match mc.pricing.pricing_model with
    | .free => 30
    | .per_token =>
      let avgCost := (mc.pricing.input_token_cost + mc.pricing.output_token_cost) / 2
      max 0 (30 - avgCost * 3000)
    | _ => 15

/-- The capability bonus inside `_select_best_model`: Python's
`if request.max_tokens and request.max_tokens <= model_config.max_tokens`
treats both `None` and `0` as falsy. -/
def maxTokensBonus (req : AIRequest) (mc : ModelConfig) : ℚ :=
  match req.max_tokens with
  | some t => if t ≠ 0 ∧ t ≤ mc.max_tokens then 20 else 0
  | none => 0

/-- The per-candidate score computed by `_select_best_model`. -/
def scoreModel (mgr : ModelManager) (req : AIRequest) (m : String) (mc : ModelConfig) : ℚ :=
  let healthScore : ℚ := if healthGet mgr m then 50 else 0
  let avg := avgResponseTime mgr m
  let latencyScore : ℚ := if 0 < avg then max 0 (50 - avg / 100) else 25
  let costScore := costEfficiencyScore mgr m
  let capabilityScore := maxTokensBonus req mc
  let typeScore : ℚ :=
    match mc.model_type with
    | .anthropic => 10
    | .openai => 8
    | .ollama => 15
    | _ => 0
  healthScore + latencyScore + costScore + capabilityScore + typeScore

/-- The `available_models` pool: healthy and active, in catalog order. -/
def availableModels (mgr : ModelManager) : List (String × ModelConfig) :=
  mgr.models.filter (fun p => healthGet mgr p.1 && p.2.is_active)

/-- Python `max(items, key=score)`: the first item attaining the maximum, in
iteration (insertion) order. -/
def pickBest (scores : List (String × ℚ)) : Option String :=
  match scores with
  | [] => none
  | s :: rest =>
    some (rest.foldl (fun best cand => if best.2 < cand.2 then cand else best) s).1

/-- `_select_best_model`. The preferred-model fast path checks only catalog
membership and health (`if request.preferred_model:` is a truthiness test, so
an empty-string preferred model is ignored); it does not check `is_active`. -/
def selectBestModel (mgr : ModelManager) (req : AIRequest) : Option String :=
  let preferredHit : Option String :=
    match req.preferred_model with
    | some p =>
      if p != "" && (dictLookup mgr.models p).isSome && healthGet mgr p then some p else none
    | none => none
  match preferredHit with
  | some p => some p
  | none =>
    let avail := availableModels mgr
    if avail.isEmpty then none
    else pickBest (avail.map (fun p => (p.1, scoreModel mgr req p.1 p.2)))

/-- `_calculate_cost`: total, returns `0` for a missing model and for the
pricing models not handled by an explicit branch (subscription). -/
def calculateCost (mgr : ModelManager) (m : String) (usage : TokenUsage) : ℚ :=
  match dictLookup mgr.models m with
  | none => 0
  | some mc =>
    match mc.pricing.pricing_model with
    | .free => 0
    | .per_token =>
      (usage.input_tokens : ℚ) * mc.pricing.input_token_cost
        + (usage.output_tokens : ℚ) * mc.pricing.output_token_cost
    | .per_request => mc.pricing.request_cost
    | .subscription => 0

/-! ## Token tracker pricing (`models/token_tracker.py`, `calculate_pricing`) -/

/-- The `pricing` sub-dictionary of a model config row, with every key
optional (`dict.get` with defaults). -/
structure TTModelPricing where
  pricing_model : Option String := none
  input_token_cost : Option ℚ := none
  output_token_cost : Option ℚ := none
  request_cost : Option ℚ := none
deriving DecidableEq, Repr

structure TTPricingResult where
  estimated_cost : ℚ
  total_tokens : Nat
  pricing_model : String
deriving DecidableEq, Repr

/-- `TokenTracker.calculate_pricing`: a missing model produces the
`{"error": ...}` marker (modelled as `.error`); an unknown pricing model
falls through to cost `0`. -/
def calculatePricing (getModelConfig : String → Option TTModelPricing)
    (model_id : String) (input_tokens output_tokens : Nat) :
    Except String TTPricingResult :=
  match getModelConfig model_id with
  | none => .error ("Model " ++ model_id ++ " not found")
  | some pricing =>
    let pm := pricing.pricing_model.getD "per_token"
    let cost : ℚ :=
      if pm == "free" then 0
      else if pm == "per_token" then
        (input_tokens : ℚ) * pricing.input_token_cost.getD 0
          + (output_tokens : ℚ) * pricing.output_token_cost.getD 0
      else if pm == "per_request" then pricing.request_cost.getD 0
      else 0
    .ok { estimated_cost := cost
          total_tokens := input_tokens + output_tokens
          pricing_model := pm }

/-! ## `ModelManager.generate`: primary attempt, statistics, fallback chain -/

/-- The body of the primary `try` block up to the provider call: indexing
`self.models[model_to_use]` and a missing provider both raise inside the
`try`, sending control to the fallback loop. -/
def generateOnce (mgr : ModelManager) (m : String)
    (gen : String → Except String Unit) : Except String Unit :=
  match dictLookup mgr.models m with
  | none => .error ("KeyError: " ++ m)
  | some mc =>
    if mgr.providers.contains mc.model_type.value then gen m
    else .error ("Provider not available for model " ++ m)

/-- Statistics update on the primary-success path: append the latency and
keep only the last 100 samples when the list exceeds 100. -/
def recordPrimaryStats (mgr : ModelManager) (m : String) (latency : ℚ) : ModelManager :=
  let counts := dictSet mgr.request_counts m ((dictLookup mgr.request_counts m).getD 0 + 1)
  let ts := (dictLookup mgr.response_times m).getD [] ++ [latency]
  let ts := if 100 < ts.length then ts.drop (ts.length - 100) else ts
  { mgr with request_counts := counts, response_times := dictSet mgr.response_times m ts }

/-- Statistics update on the fallback-success path: the latency is appended
with no truncation (the source has no `[-100:]` step on this path). -/
def recordFallbackStats (mgr : ModelManager) (m : String) (latency : ℚ) : ModelManager :=
  let counts := dictSet mgr.request_counts m ((dictLookup mgr.request_counts m).getD 0 + 1)
  let ts := (dictLookup mgr.response_times m).getD [] ++ [latency]
  { mgr with request_counts := counts, response_times := dictSet mgr.response_times m ts }

/-- The fallback loop of `generate`: a candidate is skipped when it is not in
the catalog, equals the already-failed model, or is unhealthy (`is_active` is
not consulted); a missing provider or a failed provider call also moves on to
the next candidate. When the loop ends the aggregate error carries
`primaryError` — the exception `e` bound by the outer `except` clause, i.e.
the primary model's error. -/
def tryFallbacks (mgr : ModelManager) (gen : String → Except String Unit) (latency : ℚ)
    (failed primaryError : String) :
    List String → Except String String × ModelManager
  | [] => (.error ("All models failed. Last error: " ++ primaryError), mgr)
  | fb :: rest =>
    if (dictLookup mgr.models fb).isSome && fb != failed && healthGet mgr fb then
      match dictLookup mgr.models fb with
      | some mc =>
        if mgr.providers.contains mc.model_type.value then
          match gen fb with
          | .ok _ => (.ok fb, recordFallbackStats mgr fb latency)
          | .error _ => tryFallbacks mgr gen latency failed primaryError rest
        else tryFallbacks mgr gen latency failed primaryError rest
      | none => tryFallbacks mgr gen latency failed primaryError rest
    else tryFallbacks mgr gen latency failed primaryError rest

/-- `ModelManager.generate`, reduced to its control flow and statistics
effects: the returned `Except` carries `model_used` on success. -/
def generate (mgr : ModelManager) (gen : String → Except String Unit) (latency : ℚ)
    (req : AIRequest) : Except String String × ModelManager :=
  match selectBestModel mgr req with
  | none => (.error "No available models for this request", mgr)
  | some m =>
    match generateOnce mgr m gen with
    | .ok _ => (.ok m, recordPrimaryStats mgr m latency)
    | .error e => tryFallbacks mgr gen latency m e req.fallback_models

/-- A fallback candidate "wins" when the loop body runs it successfully:
in catalog, different from the failed model, healthy, provider present, and
the provider call succeeds. The first winning candidate is returned. -/
def fallbackWins (mgr : ModelManager) (gen : String → Except String Unit)
    (failed fb : String) : Bool :=
  (dictLookup mgr.models fb).isSome && fb != failed && healthGet mgr fb &&
    (match dictLookup mgr.models fb with
     | some mc =>
       mgr.providers.contains mc.model_type.value &&
         (match gen fb with | .ok _ => true | .error _ => false)
     | none => false)

/-! ## Rule engine (`rules/rule_engine.py`) -/

inductive RuleType
  | input_filter
  | output_filter
  | content_moderation
  | prompt_enhancement
  | response_formatting
  | cost_optimization
deriving DecidableEq, Repr

/-- Typed view of a rule's `condition` dictionary; a `none` field models an
absent key, read through `dict.get` with the source's defaults. -/
structure RCondition where
  type : Option String := none
  target : Option String := none
  value : Option String := none
  pattern : Option String := none
  min_length : Option Nat := none
  max_length : Option Nat := none
  key : Option String := none
  words : Option (List String) := none
  min_confidence : Option ℚ := none
deriving DecidableEq, Repr

/-- Typed view of a rule's `action` dictionary. -/
structure RAction where
  type : Option String := none
  operation : Option String := none
  text : Option String := none
  pattern : Option String := none
  parameter : Option String := none
  value : Option String := none
  key : Option String := none
  format : Option String := none
  banned_words : Option (List String) := none
  replacement : Option String := none
  message : Option String := none
deriving DecidableEq, Repr

structure CustomRule where
  rule_id : String
  name : String := ""
  rule_type : RuleType
  condition : RCondition := {}
  action : RAction := {}
  priority : Int := 100
  is_active : Bool := true
deriving DecidableEq, Repr

structure RuleSet where
  rule_set_id : String
  name : String := ""
  rules : List CustomRule := []
  is_active : Bool := true
deriving DecidableEq, Repr

/-- Oracles for the Python standard-library calls the rule engine makes.
A `none` result models the call raising (caught by the engine's handlers). -/
structure PyOracles where
  reSearch : String → String → Option Bool
  reSub : String → String → String → Option String
  pyFloat : String → Option ℚ
  pyInt : String → Option Int
  reSubEscCI : String → String → String → String
  dumpsDict : PyDict → String
  dumpsResponse : String → String

/-- `_get_text_for_condition`: resolves the condition's `target` (default
`"prompt"`) against whichever of request/response is present; an unavailable
target yields the empty string. -/
def getTextForCondition (O : PyOracles) (h : Heap) (cond : RCondition)
    (request : Option AIRequest) (response : Option AIResponse) : String :=
  let target := cond.target.getD "prompt"
  if target == "prompt" then
    match request with
    | some req => req.prompt
    | none => ""
  else if target == "response" then
    match response with
    | some resp => resp.content
    | none => ""
  else if target == "context" then
    match request with
    | some req =>
      if contextTruthy h req.context then O.dumpsDict (heapGet h (req.context.getD 0))
      else ""
    | none => ""
  else ""

/-- `_check_rule_condition`: total; the `try`/`except` catch that maps an
exception to `False` is baked into each branch (the only modelled raiser is
`re.search`); an unknown condition type falls through to `false`. -/
def checkRuleCondition (O : PyOracles) (h : Heap) (cond : RCondition)
    (request : Option AIRequest) (response : Option AIResponse) : Bool :=
  if cond.type == some "contains" then
    strContains (getTextForCondition O h cond request response) (cond.value.getD "")
  else if cond.type == some "matches" then
    (O.reSearch (cond.pattern.getD "") (getTextForCondition O h cond request response)).getD false
  else if cond.type == some "equals" then
    getTextForCondition O h cond request response == cond.value.getD ""
  else if cond.type == some "length" then
    let text := getTextForCondition O h cond request response
    decide (cond.min_length.getD 0 ≤ text.length) &&
      (match cond.max_length with
       | some maxL => decide (text.length ≤ maxL)
       | none => true)
  else if cond.type == some "context" then
    match request with
    | none => false
    | some req =>
      if contextTruthy h req.context then
        match dictLookup (heapGet h (req.context.getD 0)) (cond.key.getD "") with
        | some v => v == cond.value.getD ""
        | none => false
      else false
  else if cond.type == some "confidence" then
    match response with
    | none => false
    | some resp =>
      match resp.confidence_score with
      | none => false
      | some c => decide (cond.min_confidence.getD 0 ≤ c)
  else if cond.type == some "banned_words" then
    let text := getTextForCondition O h cond request response
    (cond.words.getD []).any (fun w => strContains (strLower text) (strLower w))
  else false

/-- `_apply_input_rule_action`. pydantic's `.copy()` is shallow, so the copy
shares the original's `context` dictionary address; `add_context` and `block`
rebind the field to a fresh dict only when the current context is falsy
(`None` or empty), and otherwise write through the shared address. `none`
models the action raising (`re.sub` failure, `float`/`int` conversion
failure), which the caller treats as "rule skipped". -/
def applyInputRuleAction (O : PyOracles) (rule : CustomRule) (request : AIRequest)
    (h : Heap) : Option (AIRequest × Heap) :=
  let action := rule.action
  let modified := request
  if action.type == some "modify_prompt" then
    let operation := action.operation.getD "append"
    let text := action.text.getD ""
    if operation == "append" then
      some ({ modified with prompt := request.prompt ++ "\n" ++ text }, h)
    else if operation == "prepend" then
      some ({ modified with prompt := text ++ "\n" ++ request.prompt }, h)
    else if operation == "replace" then
      let pattern := action.pattern.getD ""
      if pattern != "" then
        match O.reSub pattern text request.prompt with
        | some newPrompt => some ({ modified with prompt := newPrompt }, h)
        | none => none
      else some (modified, h)
    else some (modified, h)
  else if action.type == some "set_parameter" then
    let param := action.parameter.getD ""
    if param == "temperature" then
      match action.value with
      | some v =>
        match O.pyFloat v with
        | some q => some ({ modified with temperature := some q }, h)
        | none => none
      | none => none
    else if param == "max_tokens" then
      match action.value with
      | some v =>
        match O.pyInt v with
        | some n => some ({ modified with max_tokens := some n }, h)
        | none => none
      | none => none
    else if param == "top_p" then
      match action.value with
      | some v =>
        match O.pyFloat v with
        | some q => some ({ modified with top_p := some q }, h)
        | none => none
      | none => none
    else if param == "preferred_model" then
      some ({ modified with preferred_model := some (action.value.getD "None") }, h)
    else some (modified, h)
  else if action.type == some "add_context" then
    let k := action.key.getD ""
    let v := action.value.getD ""
    if contextTruthy h modified.context then
      some (modified, heapWrite h (modified.context.getD 0) k v)
    else
      let addr := h.length
      some ({ modified with context := some addr }, heapWrite (h ++ [[]]) addr k v)
  else if action.type == some "block" then
    if contextTruthy h modified.context then
      some (modified, heapWrite h (modified.context.getD 0) "_blocked_by_rule" rule.rule_id)
    else
      let addr := h.length
      some ({ modified with context := some addr },
        heapWrite (h ++ [[]]) addr "_blocked_by_rule" rule.rule_id)
  else some (modified, h)

/-- `_apply_output_rule_action`: every branch only rebinds `content` on the
copied response; no shared dictionary is ever written. -/
def applyOutputRuleAction (O : PyOracles) (rule : CustomRule) (response : AIResponse)
    (h : Heap) : Option (AIResponse × Heap) :=
  let action := rule.action
  let modified := response
  if action.type == some "modify_content" then
    let operation := action.operation.getD "append"
    let text := action.text.getD ""
    if operation == "append" then
      some ({ modified with content := response.content ++ "\n" ++ text }, h)
    else if operation == "prepend" then
      some ({ modified with content := text ++ "\n" ++ response.content }, h)
    else if operation == "replace" then
      let pattern := action.pattern.getD ""
      if pattern != "" then
        match O.reSub pattern text response.content with
        | some c => some ({ modified with content := c }, h)
        | none => none
      else some (modified, h)
    else some (modified, h)
  else if action.type == some "format" then
    let fmt := action.format.getD ""
    if fmt == "markdown" then
      let content := strTrim response.content
      if !strStartsWith content "#" then
        some ({ modified with content := "## Response\n\n" ++ content }, h)
      else some (modified, h)
    else if fmt == "json" then
      some ({ modified with content := O.dumpsResponse response.content }, h)
    else some (modified, h)
  else if action.type == some "filter" then
    let banned := action.banned_words.getD []
    let replacement := action.replacement.getD "[FILTERED]"
    some ({ modified with
      content := banned.foldl (fun c w => O.reSubEscCI w replacement c) response.content }, h)
  else if action.type == some "block" then
    some ({ modified with content := action.message.getD "Content blocked by content policy" }, h)
  else some (modified, h)

/-- The rule types selected by `apply_input_rules`. -/
def isInputRuleType : RuleType → Bool
  | .input_filter => true
  | .content_moderation => true
  | .prompt_enhancement => true
  | .cost_optimization => true
  | _ => false

def applicableInputRules (rs : RuleSet) : List CustomRule :=
  rs.rules.filter (fun r => r.is_active && isInputRuleType r.rule_type)

/-- `rule.priority` comparison used by `input_rules.sort(key=lambda r: r.priority)`. -/
def priorityLe (a b : CustomRule) : Prop := a.priority ≤ b.priority

instance : DecidableRel priorityLe :=
  fun a b => inferInstanceAs (Decidable (a.priority ≤ b.priority))

instance : IsTotal CustomRule priorityLe := ⟨fun a b => le_total a.priority b.priority⟩

instance : IsTrans CustomRule priorityLe := ⟨fun _ _ _ h1 h2 => le_trans h1 h2⟩

/-- Strict priority order, used to pin the sorted order down when all
priorities are distinct. -/
def priorityLt (a b : CustomRule) : Prop := a.priority < b.priority

instance : IsAntisymm CustomRule priorityLt :=
  ⟨fun _ _ h1 h2 => absurd (lt_trans h1 h2) (lt_irrefl _)⟩

/-- The applicable input rules, sorted ascending by priority with a stable
sort (Python `list.sort` is stable). -/
def sortInputRules (rs : RuleSet) : List CustomRule :=
  (applicableInputRules rs).insertionSort priorityLe

/-- One iteration of the `apply_input_rules` loop: test the condition against
the current (possibly already modified) request; on a hit apply the action,
recording the rule id; a raising rule is skipped. -/
def inputRuleStep (O : PyOracles) (acc : AIRequest × Heap × List String)
    (rule : CustomRule) : AIRequest × Heap × List String :=
  let (cur, h, applied) := acc
  if checkRuleCondition O h rule.condition (some cur) none then
    match applyInputRuleAction O rule cur h with
    | some (cur', h') => (cur', h', applied ++ [rule.rule_id])
    | none => (cur, h, applied)
  else (cur, h, applied)

/-- `apply_input_rules`: no-op on an inactive rule set, otherwise a fold over
the priority-sorted applicable rules. The third component is the
`rules_applied` accumulator handed to usage tracking. -/
def applyInputRules (O : PyOracles) (request : AIRequest) (h : Heap) (rs : RuleSet) :
    AIRequest × Heap × List String :=
  if !rs.is_active then (request, h, [])
  else (sortInputRules rs).foldl (inputRuleStep O) (request, h, [])

/-! ## Workflow engine (`apps/ai-service/services/workflow_engine.py`) -/

structure WorkflowState where
  execution_id : String
  workflow_id : String
  lead_id : Option String := none
  current_node : String := ""
  -- source field name `variables` (a reserved word in Lean)
  vars : List (String × String) := []
  messages : List String := []
  status : String := "RUNNING"
  error : Option String := none
deriving DecidableEq, Repr

/-- The observable effects of one `execute_workflow` call: the returned value
(or raised error), every `save_execution` call in order, the active-execution
registry after the call, and the published events as (channel, status) pairs. -/
structure ExecutionOutcome where
  result : Except String String
  saved_states : List WorkflowState
  active_after : List String
  published_events : List (String × String)
deriving Repr

def initialWorkflowState (workflow_id execution_id : String) (lead_id : Option String)
    (trigger_data : List (String × String)) : WorkflowState :=
  { execution_id := execution_id
    workflow_id := workflow_id
    lead_id := lead_id
    current_node := ""
    vars := trigger_data
    messages := []
    status := "RUNNING"
    error := none }

/-- `execute_workflow`. `workflow_config` is the CRM collaborator's answer
(`none` raises `ValueError` before any bookkeeping); `traversal` is the
compiled graph's `ainvoke`, whose `.error` case stands for any uncaught
exception during traversal. On either traversal outcome the same completion
bookkeeping runs once: persist the final state, drop the execution from the
active registry, publish one `workflow_completed` event. -/
def executeWorkflow (workflow_config : Option Unit)
    (traversal : WorkflowState → Except String WorkflowState)
    (active0 : List String) (workflow_id execution_id : String)
    (lead_id : Option String) (trigger_data : List (String × String)) :
    ExecutionOutcome :=
  match workflow_config with
  | none =>
    { result := .error ("Workflow " ++ workflow_id ++ " not found")
      saved_states := []
      active_after := active0
      published_events := [] }
  | some _ =>
    let init := initialWorkflowState workflow_id execution_id lead_id trigger_data
    let active1 := active0 ++ [execution_id]
    let final : WorkflowState :=
      match traversal init with
      | .ok fs => { fs with status := "COMPLETED" }
      | .error e => { init with status := "FAILED", error := some e }
    { result := .ok execution_id
      saved_states := [init, final]
      active_after := active1.filter (fun eid => eid != execution_id)
      published_events := [("workflow_completed", final.status)] }

/-! ## Concrete fixtures used by witnesses and counterexamples -/

/-- Oracles with harmless total behaviour, for concrete evaluations whose
branches never consult them. -/
def plainOracles : PyOracles :=
  { reSearch := fun _ _ => some false
    reSub := fun _ _ t => some t
    pyFloat := fun _ => none
    pyInt := fun _ => none
    reSubEscCI := fun _ _ c => c
    dumpsDict := fun _ => ""
    dumpsResponse := fun s => s }

def freePricing (m : String) : ModelPricing := { model_id := m, pricing_model := .free }

/-- Primary model for the generate fixtures: active, healthy, openai. -/
def mcActive : ModelConfig :=
  { model_id := "m1", model_type := .openai, pricing := freePricing "m1" }

/-- Fallback model for the generate fixtures: healthy but deactivated. -/
def mcInactive : ModelConfig :=
  { model_id := "m2", model_type := .openai, pricing := freePricing "m2", is_active := false }

/-- Manager with an active primary "m1", an inactive but healthy fallback
"m2", and 100 recorded latencies for "m2". -/
def mgrFallback : ModelManager :=
  { providers := ["openai"]
    models := [("m1", mcActive), ("m2", mcInactive)]
    health_status := [("m1", true), ("m2", true)]
    request_counts := [("m1", 0), ("m2", 0)]
    response_times := [("m1", []), ("m2", List.replicate 100 0)] }

/-- Provider behaviour: the primary "m1" raises, everything else succeeds. -/
def genPrimaryFails : String → Except String Unit :=
  fun m => if m == "m1" then .error "primary boom" else .ok ()

def reqFallback : AIRequest :=
  { prompt := "x", preferred_model := some "m1", fallback_models := ["m2"] }

/-- Provider behaviour where every model's call raises. -/
def genAllFail : String → Except String Unit := fun m => .error ("err-" ++ m)

/-- Per-token model "A" with the Scenario B prices (input 0.001, output 0.002
per token). -/
def mcScenarioB : ModelConfig :=
  { model_id := "A", model_type := .openai,
    pricing := { model_id := "A", pricing_model := .per_token,
                 input_token_cost := 1/1000, output_token_cost := 1/500 } }

/-- Manager holding only the Scenario B model. -/
def mgrScenarioB : ModelManager :=
  { providers := ["openai"]
    models := [("A", mcScenarioB)]
    health_status := [("A", true)]
    request_counts := [("A", 0)]
    response_times := [("A", [])] }

/-- Manager with a subscription-priced model and nothing else. -/
def mgrSubscription : ModelManager :=
  { providers := []
    models := [("sub",
      { model_id := "sub", model_type := .custom,
        pricing := { model_id := "sub", pricing_model := .subscription } })]
    health_status := [("sub", true)]
    request_counts := [("sub", 0)]
    response_times := [("sub", [])] }

/-- An `add_context` input rule. -/
def ruleAddContext : CustomRule :=
  { rule_id := "r-add", rule_type := .input_filter,
    action := { type := some "add_context", key := some "k", value := some "v" } }

/-- A `modify_prompt`/append input rule. -/
def ruleAppendPrompt : CustomRule :=
  { rule_id := "r-append", rule_type := .prompt_enhancement,
    action := { type := some "modify_prompt", operation := some "append", text := some "x" } }

/-- A request whose context points at the caller's (non-empty) dict at
address 0. -/
def reqSharedContext : AIRequest := { prompt := "p", context := some 0 }

/-- Heap holding the caller's context dict `{"a": "b"}` at address 0. -/
def heapSharedContext : Heap := [[("a", "b")]]

/-- Condition with an input-phase-unavailable target and an empty value. -/
def condEqualsEmptyOnResponse : RCondition :=
  { type := some "equals", target := some "response", value := some "" }

/-- Condition with a type the engine does not know. -/
def condUnknownType : RCondition := { type := some "sentiment_v2" }

/-- Three input-filter rules with distinct priorities, for the ordering
witness; inserted into the rule set out of priority order. -/
def rulePrioA : CustomRule :=
  { rule_id := "pa", rule_type := .input_filter, priority := 1 }

def rulePrioB : CustomRule :=
  { rule_id := "pb", rule_type := .input_filter, priority := 2 }

def rulePrioC : CustomRule :=
  { rule_id := "pc", rule_type := .input_filter, priority := 3 }

def ruleSetShuffled : RuleSet :=
  { rule_set_id := "rs1", rules := [rulePrioC, rulePrioA, rulePrioB] }

/-! ## Theorems -/

/-- C1: for every generation request whose `preferred_model` names a model
that is in the catalog, active, and healthy, `_select_best_model` returns
exactly that model id immediately, regardless of its computed score relative
to any other candidate. (Scoring is never reached on this path.) -/
theorem preferred_model_override (mgr : ModelManager) (req : AIRequest) (p : String)
    (mc : ModelConfig)
    (hpref : req.preferred_model = some p) (hname : p ≠ "")
    (hcat : dictLookup mgr.models p = some mc) (hactive : mc.is_active = true)
    (hhealthy : healthGet mgr p = true) :
    selectBestModel mgr req = some p := by
  simp [selectBestModel, hpref, hcat, hhealthy, hname]

/-- Witness for C1 at a concrete catalog: "m1" is active and healthy and the
request prefers it. -/
theorem preferred_model_override_witness :
    mcActive.is_active = true ∧ selectBestModel mgrFallback reqFallback = some "m1" :=
  ⟨rfl, preferred_model_override mgrFallback reqFallback "m1" mcActive rfl (by decide) rfl rfl
    rfl⟩

/-- C10: the preferred-model fast path checks only catalog membership and
health, not `is_active`: a deactivated but healthy preferred model is still
returned. -/
theorem preferred_model_ignores_is_active (mgr : ModelManager) (req : AIRequest) (p : String)
    (mc : ModelConfig)
    (hpref : req.preferred_model = some p) (hname : p ≠ "")
    (hcat : dictLookup mgr.models p = some mc) (hinactive : mc.is_active = false)
    (hhealthy : healthGet mgr p = true) :
    selectBestModel mgr req = some p := by
  simp [selectBestModel, hpref, hcat, hhealthy, hname]

/-- Witness for C10: "m2" is deactivated (`is_active = false`) yet selected
when preferred. -/
theorem preferred_model_ignores_is_active_witness :
    mcInactive.is_active = false ∧
      selectBestModel mgrFallback { prompt := "x", preferred_model := some "m2" } = some "m2" :=
  ⟨rfl, preferred_model_ignores_is_active mgrFallback
    { prompt := "x", preferred_model := some "m2" } "m2" mcInactive rfl (by decide) rfl rfl rfl⟩

/-- C9 counterexample: `_calculate_cost` silently returns `0` both for a model
id absent from the catalog ("ghost") and for a model whose pricing policy is
not one of free/per-token/per-request ("sub", subscription); no error is
raised or returned, contradicting the claim that such failures propagate as
explicit errors. -/
theorem calculate_cost_silent_defaults :
    calculateCost mgrSubscription "ghost" { input_tokens := 3, output_tokens := 4 } = 0 ∧
      calculateCost mgrSubscription "sub" { input_tokens := 3, output_tokens := 4 } = 0 :=
  ⟨rfl, rfl⟩

/-- C9 amended: `_calculate_cost` returns the default `0` (silently) for a
missing model and for the unknown (subscription) policy; only the token
tracker's `calculate_pricing` reports a missing model as an explicit error
marker. -/
theorem cost_unknown_policy_defaults (mgr : ModelManager) (m : String) (u : TokenUsage) :
    (dictLookup mgr.models m = none → calculateCost mgr m u = 0)
  ∧ (∀ mc : ModelConfig, dictLookup mgr.models m = some mc →
      mc.pricing.pricing_model = PricingModel.subscription → calculateCost mgr m u = 0)
  ∧ (∀ (g : String → Option TTModelPricing) (i o : Nat), g m = none →
      calculatePricing g m i o = .error ("Model " ++ m ++ " not found")) := by
  refine ⟨fun hmiss => ?_, fun mc hcat hsub => ?_, fun g i o hmiss => ?_⟩
  · simp [calculateCost, hmiss]
  · simp [calculateCost, hcat, hsub]
  · simp [calculatePricing, hmiss]

/-- Witness for C9 amended, at the concrete subscription catalog. -/
theorem cost_unknown_policy_defaults_witness :
    calculateCost mgrSubscription "ghost" { input_tokens := 3, output_tokens := 4 } = 0 :=
  (cost_unknown_policy_defaults mgrSubscription "ghost"
    { input_tokens := 3, output_tokens := 4 }).1 rfl

/-- C7: when graph traversal raises, `execute_workflow` catches the exception
at the top level, marks the execution FAILED with the captured error, and
still performs the same completion bookkeeping as a successful run: the final
state is persisted (last `save_execution` call), the execution id is removed
from the active registry, and exactly one `workflow_completed` event is
published — for a failing traversal and for every traversal alike. -/
theorem workflow_failure_bookkeeping (active0 : List String)
    (workflow_id execution_id : String) (lead_id : Option String)
    (trigger_data : List (String × String)) (e : String) :
    (executeWorkflow (some ()) (fun _ => .error e) active0 workflow_id execution_id
        lead_id trigger_data).published_events = [("workflow_completed", "FAILED")] ∧
      (executeWorkflow (some ()) (fun _ => .error e) active0 workflow_id execution_id
          lead_id trigger_data).saved_states =
        [initialWorkflowState workflow_id execution_id lead_id trigger_data,
         { initialWorkflowState workflow_id execution_id lead_id trigger_data with
             status := "FAILED", error := some e }] ∧
      execution_id ∉ (executeWorkflow (some ()) (fun _ => .error e) active0 workflow_id
          execution_id lead_id trigger_data).active_after ∧
      (executeWorkflow (some ()) (fun _ => .error e) active0 workflow_id execution_id
          lead_id trigger_data).result = .ok execution_id ∧
      (∀ traversal : WorkflowState → Except String WorkflowState,
        (executeWorkflow (some ()) traversal active0 workflow_id execution_id
            lead_id trigger_data).published_events.length = 1 ∧
          execution_id ∉ (executeWorkflow (some ()) traversal active0 workflow_id
              execution_id lead_id trigger_data).active_after) := by
  refine ⟨rfl, rfl, ?_, rfl, fun traversal => ⟨?_, ?_⟩⟩
  · simp [executeWorkflow, List.mem_filter]
  · cases traversal (initialWorkflowState workflow_id execution_id lead_id trigger_data) <;>
      simp [executeWorkflow]
  · cases traversal (initialWorkflowState workflow_id execution_id lead_id trigger_data) <;>
      simp [executeWorkflow, List.mem_filter]

/-- C8: evaluation at the failing input. The fallback model "m2" already has
100 recorded latencies; the primary "m1" fails and "m2" succeeds as a
fallback, whose statistics path appends without the `[-100:]` truncation, so
the retained list grows to 101 entries — exceeding the documented bound of
100. -/
theorem fallback_stats_exceed_100 :
    (generate mgrFallback genPrimaryFails 1 reqFallback).1 = .ok "m2" ∧
      ((dictLookup (generate mgrFallback genPrimaryFails 1 reqFallback).2.response_times
          "m2").getD []).length = 101 :=
  ⟨rfl, rfl⟩

/-- C2 counterexample: the fallback loop does not skip inactive models, and
the aggregate error carries the primary model's error rather than the last
one. Here the healthy fallback "m2" has `is_active = false` yet is attempted
and wins; and when every model fails, the raised message embeds the primary
error "err-m1" even though the last failing attempt was "m2". -/
theorem inactive_fallback_attempted :
    mcInactive.is_active = false ∧
      (generate mgrFallback genPrimaryFails 1 reqFallback).1 = .ok "m2" ∧
      (generate mgrFallback genAllFail 1 reqFallback).1 =
        .error "All models failed. Last error: err-m1" :=
  ⟨rfl, rfl, rfl⟩

/-- Helper: a non-winning head of the fallback list is skipped verbatim. -/
theorem tryFallbacks_skip (mgr : ModelManager) (gen : String → Except String Unit)
    (latency : ℚ) (failed primaryError fb : String) (rest : List String)
    (hskip : fallbackWins mgr gen failed fb = false) :
    tryFallbacks mgr gen latency failed primaryError (fb :: rest) =
      tryFallbacks mgr gen latency failed primaryError rest := by
  by_cases hc : ((dictLookup mgr.models fb).isSome && fb != failed && healthGet mgr fb) = true
  · cases hm : dictLookup mgr.models fb with
    | none => simp [tryFallbacks, hc, hm]
    | some mc =>
      by_cases hp : mgr.providers.contains mc.model_type.value = true
      · cases hg : gen fb with
        | ok u =>
          exfalso
          simp [fallbackWins, hm, hp, hg] at hskip
          simp [hm] at hc
          simp [hc.1, hc.2] at hskip
          exact hskip (by simpa using hp)
        | error e => simp [tryFallbacks, hc, hm, hp, hg]
      · have hnp : mc.model_type.value ∉ mgr.providers := by simpa using hp
        simp [tryFallbacks, hc, hm, hnp]
  · simp [tryFallbacks, hc]

/-- Helper: a winning head of the fallback list is returned, with the
untruncated statistics update. -/
theorem tryFallbacks_win (mgr : ModelManager) (gen : String → Except String Unit)
    (latency : ℚ) (failed primaryError fb : String) (rest : List String)
    (hwin : fallbackWins mgr gen failed fb = true) :
    tryFallbacks mgr gen latency failed primaryError (fb :: rest) =
      (.ok fb, recordFallbackStats mgr fb latency) := by
  cases hm : dictLookup mgr.models fb with
  | none => simp [fallbackWins, hm] at hwin
  | some mc =>
    simp only [fallbackWins, hm, Option.isSome_some, Bool.true_and] at hwin
    cases hg : gen fb with
    | ok u =>
      obtain ⟨⟨hne, hh⟩, hp⟩ := by
        simpa [hg, Bool.and_eq_true] using hwin
      simp [tryFallbacks, hm, hne, hh, hp, hg]
    | error e =>
      simp [hg, Bool.and_eq_true] at hwin

/-- C2 amended: on primary failure, `generate` iterates
`request.fallback_models` in the caller-supplied order, skipping every entry
that is not in the catalog, unhealthy, equal to the already-failed model, or
without a provider (inactive entries are still attempted); the first fallback
whose provider call succeeds produces the returned response, later fallbacks
are never attempted; and when the primary and all fallbacks fail, the
aggregate error carries the primary model's error. -/
theorem fallback_chain_behavior (mgr : ModelManager) (gen : String → Except String Unit)
    (latency : ℚ) (failed primaryError : String) :
    (∀ fbs : List String, (∀ fb ∈ fbs, fallbackWins mgr gen failed fb = false) →
        (tryFallbacks mgr gen latency failed primaryError fbs).1 =
          .error ("All models failed. Last error: " ++ primaryError))
  ∧ (∀ (pre : List String) (fb : String) (post : List String),
        (∀ x ∈ pre, fallbackWins mgr gen failed x = false) →
        fallbackWins mgr gen failed fb = true →
        (tryFallbacks mgr gen latency failed primaryError (pre ++ fb :: post)).1 = .ok fb)
  ∧ (∀ (req : AIRequest) (m e : String), selectBestModel mgr req = some m →
        generateOnce mgr m gen = .error e →
        generate mgr gen latency req = tryFallbacks mgr gen latency m e req.fallback_models) := by
  refine ⟨?_, ?_, ?_⟩
  · intro fbs
    induction fbs with
    | nil => intro _; simp [tryFallbacks]
    | cons fb rest ih =>
      intro hall
      rw [tryFallbacks_skip mgr gen latency failed primaryError fb rest
        (hall fb (List.mem_cons_self fb rest))]
      exact ih (fun x hx => hall x (List.mem_cons_of_mem fb hx))
  · intro pre fb post hpre hwin
    induction pre with
    | nil =>
      rw [List.nil_append,
        tryFallbacks_win mgr gen latency failed primaryError fb post hwin]
    | cons x pre' ih =>
      rw [List.cons_append,
        tryFallbacks_skip mgr gen latency failed primaryError x (pre' ++ fb :: post)
          (hpre x (List.mem_cons_self x pre'))]
      exact ih (fun y hy => hpre y (List.mem_cons_of_mem x hy))
  · intro req m e hsel hgen
    simp [generate, hsel, hgen]

/-- Witness for C2 amended: the winning fallback "m2" at the concrete
fixture, with an empty skipped prefix. -/
theorem fallback_chain_behavior_witness :
    (tryFallbacks mgrFallback genPrimaryFails 1 "m1" "primary boom" ["m2"]).1 = .ok "m2" :=
  (fallback_chain_behavior mgrFallback genPrimaryFails 1 "m1" "primary boom").2.1 [] "m2" []
    (by intro x hx; exact absurd hx (List.not_mem_nil x)) rfl

/-- C3: for a per-token model the computed cost is exactly
`input_tokens * input_token_cost + output_tokens * output_token_cost`; with
non-negative per-token prices the cost is monotonically non-decreasing in
both token counts; a free model costs `0`; `TokenTracker.calculate_pricing`
computes the same per-token formula; and Scenario B (prices 0.001/0.002,
usage 100/50) yields exactly 0.2. -/
theorem per_token_cost_formula (mgr : ModelManager) (m : String) (mc : ModelConfig)
    (hcat : dictLookup mgr.models m = some mc)
    (hper : mc.pricing.pricing_model = PricingModel.per_token) :
    (∀ u : TokenUsage, calculateCost mgr m u =
        (u.input_tokens : ℚ) * mc.pricing.input_token_cost
          + (u.output_tokens : ℚ) * mc.pricing.output_token_cost)
  ∧ (∀ u u' : TokenUsage, 0 ≤ mc.pricing.input_token_cost →
      0 ≤ mc.pricing.output_token_cost → u.input_tokens ≤ u'.input_tokens →
      u.output_tokens ≤ u'.output_tokens → calculateCost mgr m u ≤ calculateCost mgr m u')
  ∧ (∀ (mgr2 : ModelManager) (m2 : String) (mc2 : ModelConfig) (u : TokenUsage),
      dictLookup mgr2.models m2 = some mc2 →
      mc2.pricing.pricing_model = PricingModel.free → calculateCost mgr2 m2 u = 0)
  ∧ (∀ (g : String → Option TTModelPricing) (mid : String) (p : TTModelPricing) (i o : Nat),
      g mid = some p → p.pricing_model = some "per_token" →
      (calculatePricing g mid i o).map (fun r => r.estimated_cost) =
        .ok ((i : ℚ) * p.input_token_cost.getD 0 + (o : ℚ) * p.output_token_cost.getD 0))
  ∧ calculateCost mgrScenarioB "A" { input_tokens := 100, output_tokens := 50 } = 1/5 := by
  have hformula : ∀ u : TokenUsage, calculateCost mgr m u =
      (u.input_tokens : ℚ) * mc.pricing.input_token_cost
        + (u.output_tokens : ℚ) * mc.pricing.output_token_cost := by
    intro u
    simp [calculateCost, hcat, hper]
  refine ⟨hformula, ?_, ?_, ?_, ?_⟩
  · intro u u' hic hoc hin hout
    rw [hformula u, hformula u']
    have hin' : (u.input_tokens : ℚ) ≤ (u'.input_tokens : ℚ) := by exact_mod_cast hin
    have hout' : (u.output_tokens : ℚ) ≤ (u'.output_tokens : ℚ) := by exact_mod_cast hout
    exact add_le_add (mul_le_mul_of_nonneg_right hin' hic)
      (mul_le_mul_of_nonneg_right hout' hoc)
  · intro mgr2 m2 mc2 u hcat2 hfree
    simp [calculateCost, hcat2, hfree]
  · intro g mid p i o hg hpm
    simp [calculatePricing, hg, hpm, Except.map]
  · have hA : dictLookup mgrScenarioB.models "A" = some mcScenarioB := rfl
    have hAper : mcScenarioB.pricing.pricing_model = PricingModel.per_token := rfl
    rw [show ({ input_tokens := 100, output_tokens := 50 } : TokenUsage) =
      { input_tokens := 100, output_tokens := 50 } from rfl]
    simp [calculateCost, hA, mcScenarioB]
    norm_num

/-- Witness for C3 at the Scenario B catalog: the per-token formula applied
to `TokenUsage(100, 50)` gives cost 1/5 = 0.2. -/
theorem per_token_cost_formula_witness :
    calculateCost mgrScenarioB "A" { input_tokens := 100, output_tokens := 50 } = 1/5 := by
  have h := (per_token_cost_formula mgrScenarioB "A" mcScenarioB rfl rfl).1
    { input_tokens := 100, output_tokens := 50 }
  rw [h]
  norm_num [mcScenarioB]

/-- C4: for an active rule set whose applicable input rules are exactly
`r1, r2, r3` (in any insertion order) with strictly increasing priorities,
`apply_input_rules` evaluates and applies them as the fold over
`[r1, r2, r3]` — lowest priority value first, regardless of insertion
order. -/
theorem input_rules_priority_order (O : PyOracles) (request : AIRequest) (h : Heap)
    (rs : RuleSet) (r1 r2 r3 : CustomRule)
    (hact : rs.is_active = true)
    (hperm : (applicableInputRules rs).Perm [r1, r2, r3])
    (h12 : r1.priority < r2.priority) (h23 : r2.priority < r3.priority) :
    sortInputRules rs = [r1, r2, r3] ∧
      applyInputRules O request h rs =
        inputRuleStep O (inputRuleStep O (inputRuleStep O (request, h, []) r1) r2) r3 := by
  have hsorted : (sortInputRules rs).Sorted priorityLe :=
    List.sorted_insertionSort priorityLe (applicableInputRules rs)
  have hp : (sortInputRules rs).Perm [r1, r2, r3] :=
    (List.perm_insertionSort priorityLe (applicableInputRules rs)).trans hperm
  have hne3 : List.Pairwise (fun a b : CustomRule => a.priority ≠ b.priority) [r1, r2, r3] := by
    simp [List.pairwise_cons]
    omega
  have hpairne : (sortInputRules rs).Pairwise (fun a b => a.priority ≠ b.priority) :=
    (List.Perm.pairwise_iff (R := fun a b : CustomRule => a.priority ≠ b.priority)
      (fun hab => Ne.symm hab) hp).mpr hne3
  have hlt : (sortInputRules rs).Sorted priorityLt :=
    (hsorted.and hpairne).imp (fun hab => lt_of_le_of_ne hab.1 hab.2)
  have hrhs : List.Sorted priorityLt [r1, r2, r3] := by
    simp [List.sorted_cons, priorityLt]
    omega
  have heq : sortInputRules rs = [r1, r2, r3] := List.eq_of_perm_of_sorted hp hlt hrhs
  refine ⟨heq, ?_⟩
  simp [applyInputRules, hact, heq]

/-- Witness for C4: a rule set inserted in priority order 3, 1, 2 still
sorts and applies as priorities 1, 2, 3. -/
theorem input_rules_priority_order_witness :
    sortInputRules ruleSetShuffled = [rulePrioA, rulePrioB, rulePrioC] :=
  (input_rules_priority_order plainOracles { prompt := "w" } [] ruleSetShuffled
    rulePrioA rulePrioB rulePrioC rfl (by decide) (by decide) (by decide)).1

/-- Helper: writing one heap cell leaves every other cell unchanged. -/
theorem heapWrite_get?_ne (h : Heap) (addr a : Nat) (k v : String) (hne : a ≠ addr) :
    (heapWrite h addr k v).get? a = h.get? a := by
  simp only [heapWrite, heapSet]
  exact List.get?_set_ne _ _ (Ne.symm hne)

/-- Helper: writing into a freshly allocated cell leaves every pre-existing
cell unchanged. -/
theorem heapWrite_fresh_get? (h : Heap) (a : Nat) (k v : String) (ha : a < h.length) :
    (heapWrite (h ++ [[]]) h.length k v).get? a = h.get? a := by
  rw [heapWrite_get?_ne _ _ _ _ _ (Nat.ne_of_lt ha)]
  exact List.get?_append ha

/-- Helper: an input rule action either leaves the heap alone, writes through
the request's (truthy) shared context address, or writes into a fresh cell
appended past the old heap. -/
theorem applyInputRuleAction_heap (O : PyOracles) (rule : CustomRule)
    (request : AIRequest) (h : Heap) (request' : AIRequest) (h' : Heap)
    (happ : applyInputRuleAction O rule request h = some (request', h')) :
    h' = h ∨
      (contextTruthy h request.context = true ∧
        ∃ k v, h' = heapWrite h (request.context.getD 0) k v) ∨
      (contextTruthy h request.context = false ∧
        ∃ k v, h' = heapWrite (h ++ [[]]) h.length k v) := by
  simp only [applyInputRuleAction] at happ
  repeat' split at happ
  all_goals simp only [Option.some.injEq, Prod.mk.injEq, reduceCtorEq] at happ
  all_goals
    first
      | exact Or.inl happ.2.symm
      | exact Or.inr (Or.inl ⟨‹_›, _, _, happ.2.symm⟩)
      | exact Or.inr (Or.inr ⟨by
          simpa using ‹¬ contextTruthy h request.context = true›, _, _, happ.2.symm⟩)

/-- Helper: an input rule action other than `add_context`/`block` never
touches the heap. -/
theorem applyInputRuleAction_no_context_write (O : PyOracles) (rule : CustomRule)
    (request : AIRequest) (h : Heap) (request' : AIRequest) (h' : Heap)
    (hna : rule.action.type ≠ some "add_context") (hnb : rule.action.type ≠ some "block")
    (happ : applyInputRuleAction O rule request h = some (request', h')) :
    h' = h := by
  simp only [applyInputRuleAction] at happ
  repeat' split at happ
  all_goals simp only [Option.some.injEq, Prod.mk.injEq, reduceCtorEq] at happ
  all_goals
    first
      | exact happ.2.symm
      | exact absurd (by simpa using ‹(rule.action.type == some "add_context") = true›) hna
      | exact absurd (by simpa using ‹(rule.action.type == some "block") = true›) hnb

/-- Helper: an output rule action never touches the heap at all. -/
theorem applyOutputRuleAction_heap (O : PyOracles) (rule : CustomRule)
    (response : AIResponse) (h : Heap) (response' : AIResponse) (h' : Heap)
    (happ : applyOutputRuleAction O rule response h = some (response', h')) :
    h' = h := by
  simp only [applyOutputRuleAction] at happ
  repeat' split at happ
  all_goals simp only [Option.some.injEq, Prod.mk.injEq, reduceCtorEq] at happ
  all_goals exact happ.2.symm

/-- C5 counterexample: `_apply_input_rule_action` with an `add_context` action
mutates the caller's original context dictionary. The caller's dict `{"a":"b"}`
lives at address 0 and the request's context points at it; after the action
the dict at address 0 has become `{"a":"b","k":"v"}` — the original request's
context map changed, because pydantic's `.copy()` shares the dict. -/
theorem input_action_mutates_shared_context :
    (applyInputRuleAction plainOracles ruleAddContext reqSharedContext heapSharedContext).map
        (fun p => heapGet p.2 0) = some [("a", "b"), ("k", "v")] ∧
      ([("a", "b"), ("k", "v")] : PyDict) ≠ [("a", "b")] :=
  ⟨rfl, by decide⟩

/-- C5 amended: rule actions copy the request/response object, so every
action of a kind other than `add_context`/`block` leaves the caller's heap
(hence the original's context map) unchanged, and even those two actions
never touch any pre-existing dictionary other than the one the request's own
context points at; output rule actions never write to the heap at all. The
original's own context map, however, is mutated by `add_context`/`block`
when it is a non-empty dict (see the counterexample). -/
theorem rule_action_copy_semantics (O : PyOracles) (rule : CustomRule) :
    (∀ (request : AIRequest) (h : Heap) (request' : AIRequest) (h' : Heap),
        rule.action.type ≠ some "add_context" → rule.action.type ≠ some "block" →
        applyInputRuleAction O rule request h = some (request', h') → h' = h)
  ∧ (∀ (request : AIRequest) (h : Heap) (request' : AIRequest) (h' : Heap) (a : Nat),
        applyInputRuleAction O rule request h = some (request', h') →
        a < h.length → request.context ≠ some a → h'.get? a = h.get? a)
  ∧ (∀ (response : AIResponse) (h : Heap) (response' : AIResponse) (h' : Heap),
        applyOutputRuleAction O rule response h = some (response', h') → h' = h) := by
  refine ⟨fun request h request' h' hna hnb happ =>
      applyInputRuleAction_no_context_write O rule request h request' h' hna hnb happ,
    fun request h request' h' a happ ha hnctx => ?_,
    fun response h response' h' happ =>
      applyOutputRuleAction_heap O rule response h response' h' happ⟩
  rcases applyInputRuleAction_heap O rule request h request' h' happ with
    heq | ⟨htr, k, v, heq⟩ | ⟨hfal, k, v, heq⟩
  · rw [heq]
  · subst heq
    obtain ⟨c, hc⟩ : ∃ c, request.context = some c := by
      cases hctx : request.context with
      | none => rw [hctx] at htr; simp [contextTruthy] at htr
      | some c => exact ⟨c, rfl⟩
    rw [hc]
    simp only [Option.getD_some]
    exact heapWrite_get?_ne h c a k v (fun hac => hnctx (by rw [hc, hac]))
  · subst heq
    exact heapWrite_fresh_get? h a k v ha

/-- Witness for C5 amended: a `modify_prompt` action on the shared-context
request leaves the caller's heap unchanged. -/
theorem rule_action_copy_semantics_witness :
    applyInputRuleAction plainOracles ruleAppendPrompt reqSharedContext heapSharedContext =
        some ({ reqSharedContext with prompt := "p\nx" }, heapSharedContext) ∧
      ([[("a", "b")]] : Heap) = heapSharedContext :=
  ⟨rfl, (rule_action_copy_semantics plainOracles ruleAppendPrompt).1 reqSharedContext
    heapSharedContext { reqSharedContext with prompt := "p\nx" } [[("a", "b")]]
    (by decide) (by decide) rfl⟩

/-- C6 counterexample: a condition whose target is unavailable in the current
phase does not always return false. Here an `equals` condition targeting
"response" is evaluated during the input phase (no response): the text
resolves to the empty string, which equals the condition's empty `value`, so
the condition matches and returns `true` — contradicting the claim that such
a condition "returns false rather than raising or matching". -/
theorem condition_unavailable_target_matches :
    checkRuleCondition plainOracles [] condEqualsEmptyOnResponse
      (some { prompt := "hi" }) none = true := rfl

/-- C6 amended: `_check_rule_condition` is total for every oracle behaviour
(a raising `re.search` yields false through the `except` handler), an unknown
condition type returns false, and `context`/`confidence` conditions return
false when their subject is absent; but a text condition with an unavailable
target is evaluated against the empty string rather than short-circuiting to
false, so empty-text-satisfiable conditions still match (see the
counterexample). -/
theorem check_condition_dispatch (O : PyOracles) (h : Heap) (cond : RCondition)
    (request : Option AIRequest) (response : Option AIResponse) :
    (cond.type ∉ ([some "contains", some "matches", some "equals", some "length",
        some "context", some "confidence", some "banned_words"] : List (Option String)) →
      checkRuleCondition O h cond request response = false)
  ∧ (cond.target = some "response" → response = none →
      getTextForCondition O h cond request response = "")
  ∧ (cond.type = some "context" → request = none →
      checkRuleCondition O h cond request response = false)
  ∧ (cond.type = some "confidence" → response = none →
      checkRuleCondition O h cond request response = false)
  ∧ (cond.type = some "matches" →
      O.reSearch (cond.pattern.getD "") (getTextForCondition O h cond request response) =
        none →
      checkRuleCondition O h cond request response = false) := by
  refine ⟨fun hunk => ?_, fun htgt hresp => ?_, fun hty hreq => ?_, fun hty hresp => ?_,
    fun hty hsearch => ?_⟩
  · simp only [List.mem_cons, List.mem_singleton, not_or] at hunk
    obtain ⟨h1, h2, h3, h4, h5, h6, h7, _⟩ := hunk
    simp [checkRuleCondition, h1, h2, h3, h4, h5, h6, h7]
  · subst hresp
    simp +decide [getTextForCondition, htgt]
  · subst hreq
    simp +decide [checkRuleCondition, hty]
  · subst hresp
    simp +decide [checkRuleCondition, hty]
  · simp +decide [checkRuleCondition, hty, hsearch]

/-- Witness for C6 amended: an unknown condition type ("sentiment_v2")
evaluates to false. -/
theorem check_condition_dispatch_witness :
    checkRuleCondition plainOracles [] condUnknownType none none = false :=
  (check_condition_dispatch plainOracles [] condUnknownType none none).1 (by decide)
